import Mathlib

/-!
Shallow embedding of the aac-board-viewer core: the board navigation and
rendering engine of the `BoardViewer` component, in its React binding
(`src/BoardViewer.tsx`) and its Vue binding (`BoardViewer` render-function
variant).  JavaScript strings are modelled as Lean `String`, optional fields
as `Option`, JS number efforts as `ℚ`, and JS truthiness of strings
(`"" is falsy`) explicitly via `strTruthy`.  All string operations are
re-implemented structurally over `String.data` so that every definition
reduces in the kernel.
-/

/-- JS truthiness for an optional string: `undefined`/`null`/`""` are falsy. -/
def strTruthy : Option String → Option String
  | none => none
  | some s => if s = "" then none else some s

/-- JS `a || b` where `a` is an optional string and the result is a string:
returns `a` when `a` is truthy, else `b`. -/
def jsOrString (a : Option String) (b : String) : String :=
  match a with
  | none => b
  | some s => if s = "" then b else s

/-- JS `a || b` on two optional strings (`""` counts as falsy). -/
def jsOrOption (a b : Option String) : Option String :=
  match a with
  | none => b
  | some s => if s = "" then b else some s

/-- `pat` is a prefix of `l` (char-by-char, structural). -/
def charListBeginsWith : List Char → List Char → Bool
  | [], _ => true
  | _ :: _, [] => false
  | p :: ps, c :: cs => p == c && charListBeginsWith ps cs

/-- JS `s.startsWith(pat)`. -/
def jsBeginsWith (s pat : String) : Bool :=
  charListBeginsWith pat.data s.data

/-- `pat` occurs somewhere in `l`. -/
def charListHasSub (pat : List Char) : List Char → Bool
  | [] => charListBeginsWith pat []
  | c :: cs => charListBeginsWith pat (c :: cs) || charListHasSub pat cs

/-- JS `s.includes(pat)`. -/
def strIncludes (s pat : String) : Bool :=
  charListHasSub pat.data s.data

/-- JS `s.toLowerCase()` (ASCII case mapping). -/
def jsToLower (s : String) : String :=
  String.mk (s.data.map Char.toLower)

/-- JS `s.trim()` (ASCII whitespace). -/
def jsTrim (s : String) : String :=
  String.mk (((s.data.dropWhile Char.isWhitespace).reverse.dropWhile Char.isWhitespace).reverse)

/-- Concatenation of a list of lists (structural `join`). -/
def concatAll {α : Type} : List (List α) → List α
  | [] => []
  | l :: ls => l ++ concatAll ls

/-- JS `array.join(' ')`. -/
def joinWithSpace : List String → String
  | [] => ""
  | [w] => w
  | w :: ws => w ++ " " ++ joinWithSpace ws

/-- JS `s.split(/\s+/)`: splits on maximal whitespace runs; the empty string
yields `[""]`, a leading (resp. trailing) run yields a leading (resp.
trailing) `""` token, exactly as the JS regex split does.  The `absorbing`
flag records that we are inside a whitespace run whose token was already
emitted. -/
def splitWSGo (absorbing : Bool) (cur : List Char) : List Char → List String
  | [] => [String.mk cur]
  | c :: rest =>
    if c.isWhitespace then
      if absorbing then splitWSGo true cur rest
      else String.mk cur :: splitWSGo true [] rest
    else splitWSGo false (cur ++ [c]) rest

/-- JS `s.split(/\s+/)`. -/
def jsSplitWS (s : String) : List String :=
  splitWSGo false [] s.data

/-! ## Data model (from `@willwade/aac-processors`, as consumed by the viewer) -/

/-- `AACSemanticAction`: normalized `{intent, targetId?, text?}` attached to a
button.  The viewer stringifies the intent, so it is modelled as a string. -/
structure AACSemanticAction where
  intent : Option String := none
  targetId : Option String := none
  text : Option String := none
  deriving DecidableEq

/-- The fields of `AACButton` that the viewer reads.  `parametersImageId`
models `button.parameters.image_id`. -/
structure AACButton where
  id : String := ""
  label : String := ""
  message : Option String := none
  x : Option Nat := none
  y : Option Nat := none
  rowSpan : Option Nat := none
  columnSpan : Option Nat := none
  targetPageId : Option String := none
  semanticAction : Option AACSemanticAction := none
  image : Option String := none
  resolvedImageEntry : Option String := none
  parametersImageId : Option String := none
  contentType : Option String := none
  contentSubType : Option String := none
  deriving DecidableEq

/-- `AACPage`: id, name and the authoritative 2-D grid of optional buttons. -/
structure AACPage where
  id : String := ""
  name : String := ""
  grid : List (List (Option AACButton)) := []
  deriving DecidableEq

/-- `AACTree`: insertion-ordered `pages` map plus root/toolbar pointers.
JS objects with string keys iterate in insertion order, so the map is an
association list. -/
structure AACTree where
  pages : List (String × AACPage) := []
  rootId : Option String := none
  toolbarId : Option String := none
  deriving DecidableEq

/-- `tree.pages[pid]`. -/
def getPage (tree : AACTree) (pid : String) : Option AACPage :=
  (tree.pages.find? (fun e => e.1 == pid)).map Prod.snd

/-- Whether `pid` names a page of the tree. -/
def existsPage (tree : AACTree) (pid : String) : Bool :=
  (getPage tree pid).isSome

/-- Every page sits under its own id in the pages map. -/
def pagesKeyedById (tree : AACTree) : Bool :=
  tree.pages.all (fun e => e.2.id == e.1)

/-- `ButtonMetric` entries supplied by the external metrics collaborator. -/
structure ButtonMetric where
  id : String := ""
  label : String := ""
  effort : ℚ := 0
  deriving DecidableEq

/-- `buttonMetricsLookup[bid]`: the lookup object is built by a forEach, so a
later entry with the same id overwrites an earlier one. -/
def metricFor (metrics : List ButtonMetric) (bid : String) : Option ButtonMetric :=
  metrics.reverse.find? (fun m => m.id == bid)

/-- `buttonMetricsLookup[button.id]?.effort || 1` (JS `||`: effort 0 is falsy). -/
def effortOf (metrics : List ButtonMetric) (bid : String) : ℚ :=
  match metricFor metrics bid with
  | some m => if m.effort = 0 then 1 else m.effort
  | none => 1

/-! ## Page Resolver (`resolveInitialPageId`, identical in both bindings) -/

/-- `name.toLowerCase().includes('toolbar') || ...includes('tool bar')`. -/
def nameIsToolbar (name : String) : Bool :=
  strIncludes (jsToLower name) "toolbar" || strIncludes (jsToLower name) "tool bar"

/-- Rules 4-6: the page named "start", else the first non-toolbar page, else
the first key of the map, else null. -/
def resolveStartPage (tree : AACTree) : Option String :=
  match (tree.pages.map Prod.snd).find? (fun p => jsToLower p.name == "start") with
  | some p => some p.id
  | none =>
    match (tree.pages.map Prod.snd).find? (fun p => !nameIsToolbar p.name) with
    | some p => some p.id
    | none =>
      match tree.pages with
      | [] => none
      | e :: _ => some e.1

/-- Rule 3: `tree.rootId` if it names a page whose name is not toolbar-like. -/
def resolveRootNotToolbar (tree : AACTree) : Option String :=
  match strTruthy tree.rootId with
  | some rt =>
    match getPage tree rt with
    | some rootPage =>
      if nameIsToolbar rootPage.name then resolveStartPage tree else some rt
    | none => resolveStartPage tree
  | none => resolveStartPage tree

/-- Rule 2: `tree.rootId` when a truthy `toolbarId` exists and differs from a
truthy `rootId` (no membership check on `rootId`). -/
def resolveAfterExplicit (tree : AACTree) : Option String :=
  match strTruthy tree.toolbarId, strTruthy tree.rootId with
  | some tb, some rt => if rt ≠ tb then some rt else resolveRootNotToolbar tree
  | _, _ => resolveRootNotToolbar tree

/-- `resolveInitialPageId` of the BoardViewer (both bindings): the priority
chain over explicit override, toolbar-distinct root, non-toolbar root, the
"start" page, the first non-toolbar page and the first key. -/
def resolveInitialPageId (tree : AACTree) (initialPageId : Option String) : Option String :=
  match strTruthy initialPageId with
  | some pid => if existsPage tree pid then some pid else resolveAfterExplicit tree
  | none => resolveAfterExplicit tree

/-- `currentPage` right after mount: the resolved id looked up in the pages
map (`currentPageId ? tree.pages[currentPageId] : null`). -/
def initialCurrentPage (tree : AACTree) (initialPageId : Option String) : Option AACPage :=
  match strTruthy (resolveInitialPageId tree initialPageId) with
  | some pid => getPage tree pid
  | none => none

/-- `if (!currentPage) return <No pages available placeholder>`. -/
def rendersNoPagesPlaceholder (tree : AACTree) (initialPageId : Option String) : Bool :=
  (initialCurrentPage tree initialPageId).isNone

/-! ## Navigation State Machine (`goToPage` / `handleBack`) -/

/-- `currentPageId` plus the `pageHistory` stack of page snapshots. -/
structure NavState where
  currentPageId : Option String := none
  pageHistory : List AACPage := []
  deriving DecidableEq

/-- `currentPageId ? tree.pages[currentPageId] : null`. -/
def currentPageOf (tree : AACTree) (s : NavState) : Option AACPage :=
  match strTruthy s.currentPageId with
  | some cid => getPage tree cid
  | none => none

/-- `goToPage(targetPageId)`: fails on a falsy or dangling target; otherwise
pushes the current page snapshot (if the current id resolves) and moves to
the target.  Returns the JS boolean result together with the new state. -/
def goToPage (tree : AACTree) (s : NavState) (target : Option String) : Bool × NavState :=
  match strTruthy target with
  | none => (false, s)
  | some t =>
    match getPage tree t with
    | none => (false, s)
    | some _ =>
      let hist :=
        match currentPageOf tree s with
        | some cp => s.pageHistory ++ [cp]
        | none => s.pageHistory
      (true, { currentPageId := some t, pageHistory := hist })

/-- `handleBack()`: no-op on empty history, else pop the most recent page
snapshot and jump to its id. -/
def handleBack (s : NavState) : NavState :=
  match s.pageHistory.getLast? with
  | none => s
  | some prev => { currentPageId := some prev.id, pageHistory := s.pageHistory.dropLast }

/-- A sequence of forward navigations. -/
def navSeq (tree : AACTree) (s : NavState) : List String → NavState
  | [] => s
  | t :: ts => navSeq tree (goToPage tree s (some t)).2 ts

/-- `n` back navigations. -/
def applyBack : Nat → NavState → NavState
  | 0, s => s
  | n + 1, s => applyBack n (handleBack s)

/-- Whether `goToPage` on this target would return `true` (its success does
not depend on the current state, only on the tree and the target). -/
def goToPageSucceeds (tree : AACTree) (t : String) : Bool :=
  (goToPage tree { currentPageId := none, pageHistory := [] } (some t)).1

/-! ## Utterance Accumulator (`appendText` / deletes / `clearMessage`) -/

/-- `message`, `currentWordCount` and `currentEffort` of the viewer. -/
structure UtteranceState where
  message : String := ""
  currentWordCount : Nat := 0
  currentEffort : ℚ := 0
  deriving DecidableEq

/-- The effective word of `appendText`: the JS `word || button.label || ''`
(the code calls it `trimmed`, but performs no trimming). -/
def effectiveWord (label word : String) : String :=
  jsOrString (some word) (jsOrString (some label) "")

/-- `appendText(word)`: no-op when the effective word is empty; otherwise
appends with a single-space separator and runs `updateStats` (word count +1,
effort accumulated). -/
def appendText (label word : String) (effort : ℚ) (s : UtteranceState) : UtteranceState :=
  let trimmed := effectiveWord label word
  if trimmed = "" then s
  else
    { message := s.message ++ (if s.message = "" then "" else " ") ++ trimmed
      currentWordCount := s.currentWordCount + 1
      currentEffort := s.currentEffort + effort }

/-- `deleteLastWord()`: trim, split on whitespace runs, drop the last token,
rejoin.  Only `message` is touched. -/
def deleteLastWord (s : UtteranceState) : UtteranceState :=
  { s with message := joinWithSpace ((jsSplitWS (jsTrim s.message)).dropLast) }

/-- `deleteLastCharacter()`: `message.slice(0, -1)`. -/
def deleteLastCharacter (s : UtteranceState) : UtteranceState :=
  { s with message := String.mk s.message.data.dropLast }

/-- `clearMessage()`. -/
def clearMessage (_s : UtteranceState) : UtteranceState :=
  { message := "", currentWordCount := 0, currentEffort := 0 }

/-- A sequence of `appendText` calls, each with its own ambient label, word
and effort. -/
def appendCalls (s : UtteranceState) : List (String × String × ℚ) → UtteranceState
  | [] => s
  | (lbl, w, e) :: rest => appendCalls (appendText lbl w e s) rest

/-! ## Action Interpreter (`handleButtonClick`) -/

/-- Combined component state mutated by a click. -/
structure ViewerState where
  nav : NavState := {}
  utt : UtteranceState := {}
  deriving DecidableEq

/-- `button.semanticAction?.intent ? String(...) : undefined`. -/
def intentOf (b : AACButton) : Option String :=
  match b.semanticAction with
  | some sa => strTruthy sa.intent
  | none => none

/-- `button.targetPageId || button.semanticAction?.targetId`. -/
def targetOf (b : AACButton) : Option String :=
  match strTruthy b.targetPageId with
  | some t => some t
  | none => b.semanticAction.bind AACSemanticAction.targetId

/-- `button.semanticAction?.text || button.message || button.label || ''`. -/
def textValueOf (b : AACButton) : String :=
  jsOrString (b.semanticAction.bind AACSemanticAction.text)
    (jsOrString b.message (jsOrString (some b.label) ""))

/-- The code after the `switch`: `if (targetPageId && goToPage(targetPageId))
return; appendText(textValue);` (the `targetPageId &&` guard is subsumed by
the truthiness check inside `goToPage`). -/
def clickFallthrough (tree : AACTree) (metrics : List ButtonMetric) (b : AACButton)
    (st : ViewerState) : ViewerState :=
  let r := goToPage tree st.nav (targetOf b)
  if r.1 then { st with nav := r.2 }
  else { st with utt := appendText b.label (textValueOf b) (effortOf metrics b.id) st.utt }

/-- The `switch (intent)` of `handleButtonClick`; unknown or absent intents
fall through (GO_HOME also falls through when its navigation fails). -/
def clickSwitch (tree : AACTree) (metrics : List ButtonMetric) (b : AACButton)
    (st : ViewerState) (intent : Option String) : ViewerState :=
  match intent with
  | some i =>
    if i = "GO_BACK" then { st with nav := handleBack st.nav }
    else if i = "GO_HOME" then
      let r := goToPage tree st.nav tree.rootId
      if r.1 then { st with nav := r.2 } else clickFallthrough tree metrics b st
    else if i = "DELETE_WORD" then { st with utt := deleteLastWord st.utt }
    else if i = "DELETE_CHARACTER" then { st with utt := deleteLastCharacter st.utt }
    else if i = "CLEAR_TEXT" then { st with utt := clearMessage st.utt }
    else if i = "SPEAK_IMMEDIATE" ∨ i = "SPEAK_TEXT" ∨ i = "INSERT_TEXT" then
      { st with utt := appendText b.label (textValueOf b) (effortOf metrics b.id) st.utt }
    else clickFallthrough tree metrics b st
  | none => clickFallthrough tree metrics b st

/-- `handleButtonClick(button)`: NAVIGATE_TO with a resolvable target wins,
then the intent switch, then fallback navigation, then append. -/
def handleButtonClick (tree : AACTree) (metrics : List ButtonMetric) (b : AACButton)
    (st : ViewerState) : ViewerState :=
  let intent := intentOf b
  if intent = some "NAVIGATE_TO" then
    let r := goToPage tree st.nav (targetOf b)
    if r.1 then { st with nav := r.2 } else clickSwitch tree metrics b st intent
  else clickSwitch tree metrics b st intent

/-! ## Image Source Resolver

Both bindings compute an `imageSrc` (direct/inline source) and an `apiUrl`
(deferred fetch URL).  The React binding renders `src={apiUrl || imageSrc}`;
the Vue binding renders `src: imageSrc || apiUrl` and percent-encodes the
path, so the two are embedded separately. -/

/-- JS line terminators, which `.` in a regex does not match. -/
def isJsLineTerminator (c : Char) : Bool :=
  c == Char.ofNat 10 || c == Char.ofNat 13 || c == Char.ofNat 0x2028 || c == Char.ofNat 0x2029

/-- `entryPath.match(/^(?:Grids\/)?(.+)$/)` and its first capture group:
fails only on the empty string or one containing a line terminator; the
optional `Grids/` folder prefix is stripped when a non-empty remainder is
left (the regex backtracks on the exact string `"Grids/"`). -/
def regexStripGrids (s : String) : Option String :=
  if s = "" then none
  else if s.data.any isJsLineTerminator then none
  else if jsBeginsWith s "Grids/" && decide (6 < s.data.length) then
    some (String.mk (s.data.drop 6))
  else some s

/-- The optional string is a truthy inline image data URL
(`startsWith('data:image/')`). -/
def inlineDataImage (o : Option String) : Bool :=
  match o with
  | some s => !(s == "") && jsBeginsWith s "data:image/"
  | none => false

/-- A truthy string that is not a bracketed placeholder. -/
def truthyNonBracket (o : Option String) : Bool :=
  match o with
  | some s => !(s == "") && !(jsBeginsWith s "[")
  | none => false

/-- A truthy `resolvedImageEntry` that is neither bracketed nor
inline-prefixed (the Vue rule-3 guard). -/
def entryEligible (o : Option String) : Bool :=
  match o with
  | some s => !(s == "") && !(jsBeginsWith s "[") && !(jsBeginsWith s "data:image/")
  | none => false

/-- The unreserved alphabet of `encodeURIComponent`:
`A-Z a-z 0-9 - _ . ! ~ * ' ( )` stay verbatim. -/
def isURIUnreserved (c : Char) : Bool :=
  c.isAlpha || c.isDigit || c == '-' || c == '_' || c == '.' || c == '!' ||
    c == '~' || c == '*' || c == Char.ofNat 39 || c == '(' || c == ')'

/-- Uppercase hex digit of `n < 16`. -/
def hexDigitChar (n : Nat) : Char :=
  if n < 10 then Char.ofNat (48 + n) else Char.ofNat (55 + n)

/-- `%XX` escape of one byte. -/
def percentEncodeByte (n : Nat) : List Char :=
  ['%', hexDigitChar (n / 16), hexDigitChar (n % 16)]

/-- UTF-8 bytes of a code point given as a natural number. -/
def utf8Encode (n : Nat) : List Nat :=
  if n < 128 then [n]
  else if n < 2048 then [192 + n / 64, 128 + n % 64]
  else if n < 65536 then [224 + n / 4096, 128 + n / 64 % 64, 128 + n % 64]
  else [240 + n / 262144, 128 + n / 4096 % 64, 128 + n / 64 % 64, 128 + n % 64]

/-- UTF-8 bytes of a scalar value. -/
def utf8BytesOf (c : Char) : List Nat :=
  utf8Encode c.toNat

/-- One character of `encodeURIComponent` output. -/
def encodeURIChar (c : Char) : List Char :=
  if isURIUnreserved c then [c]
  else concatAll ((utf8BytesOf c).map percentEncodeByte)

/-- JS `encodeURIComponent`. -/
def encodeURIComponent (s : String) : String :=
  String.mk (concatAll (s.data.map encodeURIChar))

/-- React `imageSrc`: `(resolvedImageEntry not bracketed ? entry : null) ||
(image not bracketed ? image : null)`. -/
def reactImageSrc (b : AACButton) : Option String :=
  if truthyNonBracket b.resolvedImageEntry then b.resolvedImageEntry
  else if truthyNonBracket b.image then b.image
  else none

/-- React `apiUrl` branch for Grid3 entries: raw (not percent-encoded)
interpolation of the stripped path. -/
def reactApiUrlFromEntry (lid : String) (b : AACButton) : Option String :=
  match b.resolvedImageEntry with
  | some e =>
    if !(e == "") && !(jsBeginsWith e "[") then
      match regexStripGrids e with
      | some r => some ("/api/image/" ++ lid ++ "/" ++ r)
      | none => none
    else none
  | none => none

/-- React `apiUrl`: with a truthy `loadId`, a long inline `image` together
with `parameters.image_id` defers via the id; else a non-bracketed
`resolvedImageEntry` defers via the stripped path. -/
def reactApiUrl (b : AACButton) (loadId : Option String) : Option String :=
  match strTruthy loadId with
  | none => none
  | some lid =>
    match strTruthy b.image, strTruthy b.parametersImageId with
    | some im, some iid =>
      if 1000 < im.data.length then some ("/api/image/" ++ lid ++ "/" ++ iid)
      else reactApiUrlFromEntry lid b
    | _, _ => reactApiUrlFromEntry lid b

/-- The React `<img src={(apiUrl || imageSrc) ?? undefined}>` choice. -/
def reactImgSrc (b : AACButton) (loadId : Option String) : Option String :=
  jsOrOption (reactApiUrl b loadId) (reactImageSrc b)

/-- The Vue `imageSrc`/`apiUrl` pair: the explicit rule chain (inline entry,
inline image, eligible entry deferred-or-direct, non-bracketed image)
followed by the `parameters.image_id` fallback when neither was set. -/
def vueResolution (b : AACButton) (loadId : Option String) : Option String × Option String :=
  let main : Option String × Option String :=
    if inlineDataImage b.resolvedImageEntry then (b.resolvedImageEntry, none)
    else if inlineDataImage b.image then (b.image, none)
    else if entryEligible b.resolvedImageEntry then
      match strTruthy loadId, b.resolvedImageEntry with
      | some lid, some e =>
        (none, (regexStripGrids e).map (fun r => "/api/image/" ++ lid ++ "/" ++ encodeURIComponent r))
      | none, some e => (some e, none)
      | _, none => (none, none)
    else if truthyNonBracket b.image then (b.image, none)
    else (none, none)
  match main with
  | (none, none) =>
    (match strTruthy loadId, strTruthy b.parametersImageId with
     | some lid, some iid => (none, some ("/api/image/" ++ lid ++ "/" ++ encodeURIComponent iid))
     | _, _ => (none, none))
  | r => r

/-- The Vue `src: imageSrc || apiUrl` choice. -/
def vueImgSrc (b : AACButton) (loadId : Option String) : Option String :=
  jsOrOption (vueResolution b loadId).1 (vueResolution b loadId).2

/-! ## Grid Layout Engine

Both bindings traverse the page grid in row-major order with a `rendered`
set of button ids: a null cell renders an empty placeholder, a repeated id
renders nothing (a skipped spanned cell), a fresh id renders the button once
at `gridColumn = colIndex+1 / span colSpan`, `gridRow = rowIndex+1 / span
rowSpan`. -/

/-- One output cell of the grid traversal.  A skipped cell records the id
that caused the skip (the id of the button sitting in that matrix cell). -/
inductive GridCell where
  | empty (rowIndex colIndex : Nat)
  | skipped (buttonId : String)
  | occupied (button : AACButton) (gridColumn colSpan gridRow rowSpan : Nat)
  deriving DecidableEq

/-- `button.columnSpan || 1` / `button.rowSpan || 1` (0 is falsy). -/
def jsSpan : Option Nat → Nat
  | none => 1
  | some n => if n = 0 then 1 else n

/-- The grid matrix flattened in row-major order with its indices. -/
def indexedCells (grid : List (List (Option AACButton))) : List (Nat × Nat × Option AACButton) :=
  concatAll (grid.enum.map (fun ir => ir.2.enum.map (fun jc => (ir.1, jc.1, jc.2))))

/-- The traversal with the mutable `rendered` set made explicit. -/
def renderFlat (rendered : List String) : List (Nat × Nat × Option AACButton) → List GridCell
  | [] => []
  | (i, j, none) :: rest => GridCell.empty i j :: renderFlat rendered rest
  | (i, j, some b) :: rest =>
    if rendered.contains b.id then GridCell.skipped b.id :: renderFlat rendered rest
    else
      GridCell.occupied b (j + 1) (jsSpan b.columnSpan) (i + 1) (jsSpan b.rowSpan)
        :: renderFlat (b.id :: rendered) rest

/-- `renderGridCells` of the BoardViewer. -/
def renderGridCells (grid : List (List (Option AACButton))) : List GridCell :=
  renderFlat [] (indexedCells grid)

/-- The matrix entry references a button with this id. -/
def cellHasId (bid : String) (e : Nat × Nat × Option AACButton) : Bool :=
  match e.2.2 with
  | some b => b.id == bid
  | none => false

/-- Output cell is `occupied` by a button with this id. -/
def isOccupiedOf (bid : String) : GridCell → Bool
  | GridCell.occupied b _ _ _ _ => b.id == bid
  | _ => false

/-- Output cell is `skipped` for this id. -/
def isSkippedOf (bid : String) : GridCell → Bool
  | GridCell.skipped i => i == bid
  | _ => false

/-- The row-major footprint of a button `b` spanning `R × C` cells from
position `(r, c)`: cell `k` sits at row `r + k / C`, column `c + k % C`. -/
def rectCells (r c R C : Nat) (b : AACButton) : List (Nat × Nat × Option AACButton) :=
  (List.range (R * C)).map (fun k => (r + k / C, c + k % C, some b))

/-- The occupied cell the traversal emits for a fresh matrix entry. -/
def occCellOf : Nat × Nat × Option AACButton → GridCell
  | (i, j, some b) => GridCell.occupied b (j + 1) (jsSpan b.columnSpan) (i + 1) (jsSpan b.rowSpan)
  | (i, j, none) => GridCell.empty i j

/-! ## Derived predicates and concrete boards used by the theorems -/

/-- `goToPage` on this optional target would succeed: the target is truthy
and names a page. -/
def resolvesTo (tree : AACTree) (o : Option String) : Bool :=
  match strTruthy o with
  | some t => existsPage tree t
  | none => false

/-- The capture group of `/^(?:Grids\/)?(.+)$/` on a string the regex
matches. -/
def gridsRemainder (s : String) : String :=
  if jsBeginsWith s "Grids/" && decide (6 < s.data.length) then String.mk (s.data.drop 6) else s

/-- The freshly-mounted utterance state. -/
def emptyUtterance : UtteranceState := {}

/-- A freshly-mounted viewer state with no current page. -/
def viewerStart : ViewerState := {}

/-- The toolbar-disambiguation scenario tree: root "p1" named "Main Toolbar",
toolbar "p2", and a page "p3" named "Start". -/
def c2Tree : AACTree :=
  { pages := [("p1", { id := "p1", name := "Main Toolbar" }),
              ("p2", { id := "p2", name := "Toolbar" }),
              ("p3", { id := "p3", name := "Start" })],
    rootId := some "p1", toolbarId := some "p2" }

/-- A tree whose `rootId` is dangling while a distinct `toolbarId` is set,
with a perfectly good page "p3" present. -/
def c10Tree : AACTree :=
  { pages := [("p3", { id := "p3", name := "Start" })],
    rootId := some "p1", toolbarId := some "p2" }

/-- A one-page tree used to start navigation from a dangling current id. -/
def c3TreeA : AACTree := { pages := [("t1", { id := "t1", name := "One" })] }

/-- A tree whose single page is stored under a key that is not its own id. -/
def c3TreeB : AACTree := { pages := [("a", { id := "b", name := "Mismatch" })] }

/-- A two-page, well-keyed tree for the history-symmetry witness. -/
def c3TreeW : AACTree :=
  { pages := [("t1", { id := "t1", name := "One" }), ("t2", { id := "t2", name := "Two" })] }

/-- A GO_HOME button. -/
def c6Button : AACButton :=
  { id := "h", label := "Home", semanticAction := some { intent := some "GO_HOME" } }

/-- A tree with a page but no `rootId`, so GO_HOME cannot navigate. -/
def c6Tree : AACTree := { pages := [("p", { id := "p", name := "Page" })] }

/-- The viewer sitting on page "p" of `c6Tree` with an empty utterance. -/
def c6State : ViewerState := { nav := { currentPageId := some "p" } }

/-- A tree whose `rootId` names an existing page. -/
def c6TreeW : AACTree :=
  { pages := [("root", { id := "root", name := "Root" })], rootId := some "root" }

/-- A dead-link button: target "missing", no semantic action. -/
def c7Button : AACButton := { id := "d", label := "Hi", targetPageId := some "missing" }

/-- The tree the dead-link button is clicked in (no page "missing"). -/
def c7Tree : AACTree := { pages := [("home", { id := "home", name := "Home" })] }

/-- A button carrying both an inline `image` data URL and a loadId-eligible
`resolvedImageEntry` archive path. -/
def c1Button : AACButton :=
  { id := "b1", label := "x",
    image := some "data:image/png;base64,AAAA",
    resolvedImageEntry := some "Grids/pic.png" }

/-- A button whose archive entry contains a space in the file name. -/
def c9Button : AACButton :=
  { id := "b9", label := "x", resolvedImageEntry := some "Grids/my pic.png" }

/-- A 2×2-spanning button and the grid it fully occupies. -/
def c4Button : AACButton :=
  { id := "big", label := "B", rowSpan := some 2, columnSpan := some 2 }

/-- The 2×2 grid every cell of which references `c4Button`. -/
def c4Grid : List (List (Option AACButton)) :=
  [[some c4Button, some c4Button], [some c4Button, some c4Button]]

/-! # Theorems -/

/-! ## Page Resolver claims -/

/-- C2: for the tree with rootId "p1" (named "Main Toolbar"), toolbarId "p2"
and a page "p3" named "Start", the resolver with no explicit override
returns "p1" (rule 2 fires before the "Start"-page rule 4), not "p3". -/
theorem resolver_toolbar_root_disambiguation :
    resolveInitialPageId c2Tree none = some "p1"
    ∧ resolveInitialPageId c2Tree none ≠ some "p3" := by
  decide

/-- C10: whenever toolbarId and rootId are both truthy and differ, the
resolver returns rootId without any membership check; on a concrete tree
with a dangling rootId, a distinct toolbarId and a non-empty pages map, the
initial current page is null and the "No pages available" placeholder is
rendered. -/
theorem resolver_rule2_no_membership_check :
    (∀ (tree : AACTree) (tb rt : String),
        strTruthy tree.toolbarId = some tb → strTruthy tree.rootId = some rt →
        rt ≠ tb → resolveInitialPageId tree none = some rt)
    ∧ (c10Tree.pages ≠ []
        ∧ resolveInitialPageId c10Tree none = some "p1"
        ∧ existsPage c10Tree "p1" = false
        ∧ rendersNoPagesPlaceholder c10Tree none = true) := by
  constructor
  · intro tree tb rt htb hrt hne
    have h1 : resolveInitialPageId tree none = resolveAfterExplicit tree := rfl
    rw [h1]
    unfold resolveAfterExplicit
    rw [htb, hrt]
    simp [hne]
  · decide

/-- Witness for C10's universal part at the concrete dangling tree. -/
theorem resolver_rule2_no_membership_check_witness :
    resolveInitialPageId c10Tree none = some "p1" :=
  resolver_rule2_no_membership_check.1 c10Tree "p2" "p1" (by decide) (by decide) (by decide)

/-! ## Navigation state machine lemmas -/

/-- Whether `goToPage` succeeds depends only on the tree and the target. -/
theorem goToPage_fst (tree : AACTree) (s : NavState) (o : Option String) :
    (goToPage tree s o).1 = resolvesTo tree o := by
  unfold goToPage resolvesTo existsPage
  cases strTruthy o with
  | none => rfl
  | some t => cases h : getPage tree t <;> simp [h]

/-- A failed `goToPage` leaves the state unchanged. -/
theorem goToPage_fail (tree : AACTree) (s : NavState) (o : Option String)
    (h : resolvesTo tree o = false) : (goToPage tree s o).2 = s := by
  unfold goToPage
  unfold resolvesTo existsPage at h
  cases ho : strTruthy o with
  | none => rfl
  | some t =>
    rw [ho] at h
    simp at h
    cases hp : getPage tree t with
    | none => simp [hp]
    | some p => rw [hp] at h; simp at h

/-- A successful `goToPage` from an existing current page pushes its snapshot
and moves to the target. -/
theorem goToPage_success (tree : AACTree) (s : NavState) (t c : String) (P : AACPage)
    (hc : s.currentPageId = some c) (hcne : c ≠ "") (hP : getPage tree c = some P)
    (ht : t ≠ "") (hex : existsPage tree t = true) :
    goToPage tree s (some t)
      = (true, { currentPageId := some t, pageHistory := s.pageHistory ++ [P] }) := by
  unfold goToPage
  have h1 : strTruthy (some t) = some t := by simp [strTruthy, ht]
  rw [h1]
  unfold existsPage at hex
  cases hp : getPage tree t with
  | none => rw [hp] at hex; simp at hex
  | some q =>
    have h2 : currentPageOf tree s = some P := by
      unfold currentPageOf
      rw [hc]
      have h3 : strTruthy (some c) = some c := by simp [strTruthy, hcne]
      rw [h3]
      exact hP
    simp [hp, h2]

/-- In a tree whose pages sit under their own ids, a looked-up page carries
the key it was found under. -/
theorem getPage_id (tree : AACTree) (k : String) (P : AACPage)
    (hkeys : pagesKeyedById tree = true) (h : getPage tree k = some P) : P.id = k := by
  unfold getPage at h
  cases hf : tree.pages.find? (fun e => e.1 == k) with
  | none => rw [hf] at h; simp at h
  | some e =>
    rw [hf] at h
    simp at h
    have hmem := List.mem_of_find?_eq_some hf
    have hpred := List.find?_some hf
    have hid := (List.all_eq_true.mp hkeys) e hmem
    simp at hpred hid
    rw [← h, hid, hpred]

/-- Iterating `handleBack` once more peels the last application off the
outside. -/
theorem applyBack_outer (n : Nat) : ∀ s : NavState, applyBack (n + 1) s = handleBack (applyBack n s) := by
  induction n with
  | zero => intro s; rfl
  | succ m ih =>
    intro s
    show applyBack (m + 1) (handleBack s) = handleBack (applyBack (m + 1) s)
    rw [ih (handleBack s)]
    rfl

/-- `goToPageSucceeds` unfolded: the target is non-empty and names a page. -/
theorem goToPageSucceeds_iff (tree : AACTree) (t : String) :
    goToPageSucceeds tree t = true ↔ (t ≠ "" ∧ existsPage tree t = true) := by
  unfold goToPageSucceeds
  rw [goToPage_fst]
  unfold resolvesTo
  by_cases ht : t = ""
  · subst ht; simp [strTruthy]
  · have h1 : strTruthy (some t) = some t := by simp [strTruthy, ht]
    rw [h1]
    simp [ht]

/-- Core of the history-symmetry claim: from any state on an existing,
well-keyed page, a block of successful forward navigations followed by the
same number of back navigations restores the state exactly. -/
theorem navSeq_back_cancel (tree : AACTree) (ts : List String) :
    ∀ (s : NavState) (c : String), pagesKeyedById tree = true →
      s.currentPageId = some c → c ≠ "" → existsPage tree c = true →
      (∀ t ∈ ts, goToPageSucceeds tree t = true) →
      applyBack ts.length (navSeq tree s ts) = s := by
  induction ts with
  | nil => intro s c _ _ _ _ _; rfl
  | cons t ts ih =>
    intro s c hkeys hc hcne hcex hall
    obtain ⟨htne, htex⟩ := (goToPageSucceeds_iff tree t).mp (hall t (by simp))
    obtain ⟨P, hP⟩ := Option.isSome_iff_exists.mp hcex
    have hstep := goToPage_success tree s t c P hc hcne hP htne htex
    have h1 : navSeq tree s (t :: ts) = navSeq tree (goToPage tree s (some t)).2 ts := rfl
    rw [h1, hstep]
    have h2 : (t :: ts).length = ts.length + 1 := rfl
    rw [h2, applyBack_outer]
    rw [ih { currentPageId := some t, pageHistory := s.pageHistory ++ [P] } t hkeys rfl htne htex
        (fun u hu => hall u (by simp [hu]))]
    unfold handleBack
    rw [List.getLast?_concat]
    have hid : P.id = c := getPage_id tree c P hkeys hP
    simp [hid, ← hc, List.dropLast_concat]

/-- C3 counterexample: the claim fails as stated, at two concrete starting
states.  From `OnPage("ghost")` (a reachable state: the resolver can select
a dangling id, see C10) one successful forward navigation pushes nothing, so
the back navigation is a no-op and the state does not return.  Likewise from
`OnPage("a")` over a map storing the page `{id := "b"}` under key "a", the
back navigation lands on "b", not "a". -/
theorem history_symmetry_cex :
    ((goToPage c3TreeA { currentPageId := some "ghost" } (some "t1")).1 = true
      ∧ applyBack 1 (navSeq c3TreeA { currentPageId := some "ghost" } ["t1"])
          ≠ { currentPageId := some "ghost" })
    ∧ ((goToPage c3TreeB { currentPageId := some "a" } (some "a")).1 = true
      ∧ applyBack 1 (navSeq c3TreeB { currentPageId := some "a" } ["a"])
          ≠ { currentPageId := some "a" }) := by
  decide

/-- C3 (amended): for every tree whose pages sit under their own ids and
every starting state `OnPage(p0)` with empty history where `p0` is a
non-empty id of an existing page, `N` successful forward navigations
followed by `N` back navigations end on `p0` with an empty history. -/
theorem history_symmetry_amended (tree : AACTree) (p0 : String) (ts : List String)
    (hkeys : pagesKeyedById tree = true) (hp0 : p0 ≠ "")
    (hex : existsPage tree p0 = true)
    (hsucc : ∀ t ∈ ts, goToPageSucceeds tree t = true) :
    applyBack ts.length (navSeq tree { currentPageId := some p0, pageHistory := [] } ts)
      = { currentPageId := some p0, pageHistory := [] } :=
  navSeq_back_cancel tree ts { currentPageId := some p0, pageHistory := [] } p0
    hkeys rfl hp0 hex hsucc

/-- Witness for C3 (amended): two forward navigations and two backs on a
concrete two-page tree restore the start state. -/
theorem history_symmetry_amended_witness :
    applyBack 2 (navSeq c3TreeW { currentPageId := some "t1", pageHistory := [] } ["t2", "t1"])
      = { currentPageId := some "t1", pageHistory := [] } :=
  history_symmetry_amended c3TreeW "t1" ["t2", "t1"] (by decide) (by decide) (by decide)
    (by decide)

/-! ## Utterance accumulator claims -/

/-- C5 counterexample: `appendText` never trims.  The word `" "` is empty
after trimming yet is appended (with stats updated), and an empty word falls
back to the button label `"X"` instead of being a no-op. -/
theorem utterance_append_trim_cex :
    jsTrim " " = ""
    ∧ (appendText "" " " 1 emptyUtterance).message = " "
    ∧ (appendText "" " " 1 emptyUtterance).currentWordCount = 1
    ∧ (appendText "X" "" 1 emptyUtterance).message = "X"
    ∧ (appendText "X" "" 1 emptyUtterance).currentWordCount = 1 := by
  decide

/-- C5 (amended): an append whose effective word (`word || label || ''`,
with no trimming) is the empty string is a no-op; every other append joins
the effective word with a single space separator, increments the word count
by exactly one and accumulates its effort; `clearMessage` resets everything;
consequently over any call sequence the word count counts the effective
appends and the effort is the sum of their efforts. -/
theorem utterance_accounting_amended :
    (∀ (lbl w : String) (e : ℚ) (s : UtteranceState),
        (effectiveWord lbl w = "" → appendText lbl w e s = s)
        ∧ (effectiveWord lbl w ≠ "" →
            (appendText lbl w e s).message
                = s.message ++ (if s.message = "" then "" else " ") ++ effectiveWord lbl w
            ∧ (appendText lbl w e s).currentWordCount = s.currentWordCount + 1
            ∧ (appendText lbl w e s).currentEffort = s.currentEffort + e))
    ∧ (∀ s : UtteranceState,
        clearMessage s = { message := "", currentWordCount := 0, currentEffort := 0 })
    ∧ (∀ (calls : List (String × String × ℚ)) (s : UtteranceState),
        (appendCalls s calls).currentWordCount
            = s.currentWordCount + calls.countP (fun t => !(effectiveWord t.1 t.2.1 == ""))
        ∧ (appendCalls s calls).currentEffort
            = s.currentEffort
                + ((calls.filter (fun t => !(effectiveWord t.1 t.2.1 == ""))).map
                    (fun t => t.2.2)).sum) := by
  refine ⟨?_, fun s => rfl, ?_⟩
  · intro lbl w e s
    constructor
    · intro h
      unfold appendText
      simp [h]
    · intro h
      unfold appendText
      simp [h]
  · intro calls
    induction calls with
    | nil => intro s; simp [appendCalls]
    | cons hd tl ih =>
      intro s
      obtain ⟨lbl, w, e⟩ := hd
      have h1 : appendCalls s ((lbl, w, e) :: tl) = appendCalls (appendText lbl w e s) tl := rfl
      by_cases h : effectiveWord lbl w = ""
      · have hno : appendText lbl w e s = s := by unfold appendText; simp [h]
        rw [h1, hno]
        obtain ⟨ihc, ihe⟩ := ih s
        constructor
        · rw [ihc, List.countP_cons]
          simp [h]
        · rw [ihe, List.filter_cons]
          simp [h]
      · have hyes : (appendText lbl w e s).currentWordCount = s.currentWordCount + 1
            ∧ (appendText lbl w e s).currentEffort = s.currentEffort + e := by
          unfold appendText; simp [h]
        rw [h1]
        obtain ⟨ihc, ihe⟩ := ih (appendText lbl w e s)
        constructor
        · rw [ihc, hyes.1, List.countP_cons]
          simp [h]
          omega
        · rw [ihe, hyes.2, List.filter_cons]
          simp [h]
          ring

/-- Witness for C5 (amended): a no-op append, an effective append and the
sequence accounting at concrete inputs. -/
theorem utterance_accounting_amended_witness :
    appendText "" "" 1 emptyUtterance = emptyUtterance
    ∧ (appendCalls emptyUtterance [("b", "hi", 2), ("b", "", 3), ("", "", 4)]).currentWordCount
        = 0 + 2 := by
  constructor
  · exact (utterance_accounting_amended.1 "" "" 1 emptyUtterance).1 (by decide)
  · rw [(utterance_accounting_amended.2.2 [("b", "hi", 2), ("b", "", 3), ("", "", 4)]
      emptyUtterance).1]
    decide

/-- C8: `deleteLastWord` and `deleteLastCharacter` touch only the message,
never the word count or the accumulated effort, and `deleteLastWord` on an
empty message yields an empty message (totally, hence without throwing). -/
theorem delete_operations_frame (s : UtteranceState) :
    (deleteLastWord s).currentWordCount = s.currentWordCount
    ∧ (deleteLastWord s).currentEffort = s.currentEffort
    ∧ (deleteLastCharacter s).currentWordCount = s.currentWordCount
    ∧ (deleteLastCharacter s).currentEffort = s.currentEffort
    ∧ (s.message = "" → (deleteLastWord s).message = "") := by
  refine ⟨rfl, rfl, rfl, rfl, ?_⟩
  intro h
  show joinWithSpace ((jsSplitWS (jsTrim s.message)).dropLast) = ""
  rw [h]
  decide

/-- Witness for C8 at the empty utterance state. -/
theorem delete_operations_frame_witness :
    (deleteLastWord emptyUtterance).message = "" :=
  (delete_operations_frame emptyUtterance).2.2.2.2 rfl

/-! ## Action interpreter claims -/

/-- JS `x || d` is non-empty whenever the default `d` is. -/
theorem jsOrString_ne_empty (o : Option String) (d : String) (hd : d ≠ "") :
    jsOrString o d ≠ "" := by
  unfold jsOrString
  cases o with
  | none => exact hd
  | some s =>
    by_cases h : s = ""
    · simp [h]; exact hd
    · simp [h]

/-- C6 counterexample: a GO_HOME click on a tree without a `rootId` is not a
no-op — it falls through and appends the button label to the utterance. -/
theorem go_home_noop_cex :
    (handleButtonClick c6Tree [] c6Button c6State).utt.message = "Home"
    ∧ (handleButtonClick c6Tree [] c6Button c6State).utt.currentWordCount = 1
    ∧ handleButtonClick c6Tree [] c6Button c6State ≠ c6State := by
  decide

/-- C6 (amended): a GO_HOME click is equivalent to `navigateTo(tree.rootId)`
when `rootId` is truthy and names an existing page; otherwise it falls
through like an intent-less button: if the button's own target does not
resolve either, the navigation state is unchanged and the text payload is
appended to the utterance (so the utterance state does change). -/
theorem go_home_behavior_amended (tree : AACTree) (metrics : List ButtonMetric)
    (b : AACButton) (st : ViewerState) (hintent : intentOf b = some "GO_HOME") :
    (resolvesTo tree tree.rootId = true →
        handleButtonClick tree metrics b st
          = { st with nav := (goToPage tree st.nav tree.rootId).2 })
    ∧ (resolvesTo tree tree.rootId = false → resolvesTo tree (targetOf b) = false →
        (handleButtonClick tree metrics b st).nav = st.nav
        ∧ (handleButtonClick tree metrics b st).utt
            = appendText b.label (textValueOf b) (effortOf metrics b.id) st.utt) := by
  have h1 : handleButtonClick tree metrics b st
      = clickSwitch tree metrics b st (some "GO_HOME") := by
    unfold handleButtonClick
    rw [hintent]
    simp
  have h2 : clickSwitch tree metrics b st (some "GO_HOME")
      = if (goToPage tree st.nav tree.rootId).1
          then { st with nav := (goToPage tree st.nav tree.rootId).2 }
          else clickFallthrough tree metrics b st := rfl
  constructor
  · intro hroot
    have hfst : (goToPage tree st.nav tree.rootId).1 = true := by
      rw [goToPage_fst]; exact hroot
    rw [h1, h2]
    simp [hfst]
  · intro hroot htv
    have hfst : (goToPage tree st.nav tree.rootId).1 = false := by
      rw [goToPage_fst]; exact hroot
    have hfst2 : (goToPage tree st.nav (targetOf b)).1 = false := by
      rw [goToPage_fst]; exact htv
    rw [h1, h2]
    simp only [hfst, Bool.false_eq_true, if_false]
    unfold clickFallthrough
    simp [hfst2]

/-- Witness for C6 (amended): on a tree whose root resolves, the GO_HOME
click navigates home. -/
theorem go_home_behavior_amended_witness :
    handleButtonClick c6TreeW [] c6Button viewerStart
      = { viewerStart with nav := (goToPage c6TreeW viewerStart.nav c6TreeW.rootId).2 } :=
  (go_home_behavior_amended c6TreeW [] c6Button viewerStart (by decide)).1 (by decide)

/-- C7: clicking a button with a dangling `targetPageId` and no semantic
action throws no exception (the embedding is total), leaves the navigation
state untouched and appends the text payload — `message` falling back to
`label` — to the utterance, incrementing the word count by one and adding
the metric effort.  The non-empty label is the §3 data-model invariant
("label is always present and is the minimum renderable content"). -/
theorem dead_link_click (tree : AACTree) (metrics : List ButtonMetric) (b : AACButton)
    (st : ViewerState) (t : String)
    (htarget : b.targetPageId = some t) (hdead : existsPage tree t = false)
    (hsa : b.semanticAction = none) (hlabel : b.label ≠ "") :
    (handleButtonClick tree metrics b st).nav = st.nav
    ∧ (handleButtonClick tree metrics b st).utt.message
        = st.utt.message ++ (if st.utt.message = "" then "" else " ")
            ++ jsOrString b.message b.label
    ∧ (handleButtonClick tree metrics b st).utt.currentWordCount
        = st.utt.currentWordCount + 1
    ∧ (handleButtonClick tree metrics b st).utt.currentEffort
        = st.utt.currentEffort + effortOf metrics b.id := by
  have hintent : intentOf b = none := by
    unfold intentOf
    rw [hsa]
  have h1 : handleButtonClick tree metrics b st
      = clickFallthrough tree metrics b st := by
    unfold handleButtonClick
    rw [hintent]
    simp
    rfl
  have htv : resolvesTo tree (targetOf b) = false := by
    unfold targetOf
    rw [htarget, hsa]
    by_cases ht : t = ""
    · simp [ht, strTruthy, resolvesTo]
    · simp [ht, strTruthy, resolvesTo, hdead]
  have hfst : (goToPage tree st.nav (targetOf b)).1 = false := by
    rw [goToPage_fst]; exact htv
  have hpayload : textValueOf b = jsOrString b.message b.label := by
    unfold textValueOf
    rw [hsa]
    cases hm : b.message with
    | none => simp [jsOrString, hlabel]
    | some m => by_cases hm0 : m = "" <;> simp [jsOrString, hlabel, hm0]
  have hpne : jsOrString b.message b.label ≠ "" := jsOrString_ne_empty _ _ hlabel
  have heff : effectiveWord b.label (textValueOf b) = jsOrString b.message b.label := by
    unfold effectiveWord
    rw [hpayload]
    generalize hgen : jsOrString b.message b.label = payload at hpne ⊢
    unfold jsOrString
    simp [hpne]
  rw [h1]
  unfold clickFallthrough
  simp only [hfst, Bool.false_eq_true, if_false]
  refine ⟨trivial, ?_, ?_, ?_⟩
  all_goals
    simp only [appendText]
    rw [heff]
    simp [hpne]

/-- Witness for C7 at a concrete dead-link button and tree. -/
theorem dead_link_click_witness :
    (handleButtonClick c7Tree [] c7Button viewerStart).nav = viewerStart.nav
    ∧ (handleButtonClick c7Tree [] c7Button viewerStart).utt.message
        = viewerStart.utt.message ++ (if viewerStart.utt.message = "" then "" else " ")
            ++ jsOrString c7Button.message c7Button.label
    ∧ (handleButtonClick c7Tree [] c7Button viewerStart).utt.currentWordCount
        = viewerStart.utt.currentWordCount + 1
    ∧ (handleButtonClick c7Tree [] c7Button viewerStart).utt.currentEffort
        = viewerStart.utt.currentEffort + effortOf [] c7Button.id :=
  dead_link_click c7Tree [] c7Button viewerStart "missing" rfl (by decide) rfl (by decide)

/-! ## Image source resolver claims -/

/-- C1 counterexample: the React binding does not choose the inline data.
For a button with an inline `image` data URL and a loadId-eligible archive
entry, `<img src={apiUrl || imageSrc}>` picks the deferred fetch URL built
from the entry, not the inline data. -/
theorem image_priority_cex :
    inlineDataImage c1Button.image = true
    ∧ entryEligible c1Button.resolvedImageEntry = true
    ∧ reactImgSrc c1Button (some "L") = some "/api/image/L/pic.png"
    ∧ reactImgSrc c1Button (some "L") ≠ c1Button.image := by
  decide

/-- An eligible entry is not an inline data URL. -/
theorem entryEligible_not_inline (o : Option String) (h : entryEligible o = true) :
    inlineDataImage o = false := by
  unfold entryEligible at h
  unfold inlineDataImage
  cases o with
  | none => rfl
  | some s =>
    simp only [Bool.and_eq_true, Bool.not_eq_true'] at h
    simp [h.2]

/-- C1 (amended): the Vue binding resolves as the spec says — for every
button with an inline `image` and a loadId-eligible `resolvedImageEntry`,
and any supplied loadId, rule 2 fires before rule 3: the chosen source is
the inline data and no deferred URL is built.  (The React binding instead
prefers the deferred URL, see the counterexample.) -/
theorem image_priority_amended (b : AACButton) (loadId : Option String) (img lid : String)
    (himg : b.image = some img) (himgne : img ≠ "")
    (hinline : jsBeginsWith img "data:image/" = true)
    (hentry : entryEligible b.resolvedImageEntry = true)
    (_hload : strTruthy loadId = some lid) :
    vueImgSrc b loadId = some img ∧ (vueResolution b loadId).2 = none := by
  have hni : inlineDataImage b.resolvedImageEntry = false := entryEligible_not_inline _ hentry
  have hii : inlineDataImage b.image = true := by
    unfold inlineDataImage
    rw [himg]
    simp [himgne, hinline]
  have hres : vueResolution b loadId = (b.image, none) := by
    unfold vueResolution
    rw [hni, hii]
    simp [himg]
  constructor
  · unfold vueImgSrc
    rw [hres, himg]
    unfold jsOrOption
    simp [himgne]
  · rw [hres]

/-- Witness for C1 (amended) at the concrete button and loadId. -/
theorem image_priority_amended_witness :
    vueImgSrc c1Button (some "L") = some "data:image/png;base64,AAAA"
    ∧ (vueResolution c1Button (some "L")).2 = none :=
  image_priority_amended c1Button (some "L") "data:image/png;base64,AAAA" "L"
    rfl (by decide) (by decide) (by decide) (by decide)

/-- C9 counterexample: the React binding interpolates the stripped remainder
raw — the space in "my pic.png" reaches the URL unencoded, so the claimed
percent-encoding does not hold of it. -/
theorem deferred_url_encoding_cex :
    reactApiUrl c9Button (some "L") = some "/api/image/L/my pic.png"
    ∧ encodeURIComponent "my pic.png" = "my%20pic.png"
    ∧ reactApiUrl c9Button (some "L")
        ≠ some ("/api/image/L/" ++ encodeURIComponent "my pic.png") := by
  decide

/-- Every code point is below 0x110000. -/
theorem char_toNat_lt (c : Char) : c.toNat < 1114112 := by
  rcases c.valid with h | h
  · exact Nat.lt_trans h (by decide)
  · exact h.2

/-- UTF-8 bytes of an in-range code point are bytes. -/
theorem utf8Encode_lt (n : Nat) (hn : n < 1114112) : ∀ m ∈ utf8Encode n, m < 256 := by
  intro m hm
  unfold utf8Encode at hm
  by_cases h1 : n < 128
  · simp [h1] at hm; omega
  · by_cases h2 : n < 2048
    · simp [h1, h2] at hm
      rcases hm with hm | hm <;> omega
    · by_cases h3 : n < 65536
      · simp [h1, h2, h3] at hm
        rcases hm with hm | hm | hm <;> omega
      · simp [h1, h2, h3] at hm
        rcases hm with hm | hm | hm | hm <;> omega

/-- Hex digits are unreserved output characters. -/
theorem hexDigitChar_ok (m : Nat) (hm : m < 16) :
    (isURIUnreserved (hexDigitChar m) || (hexDigitChar m == '%')) = true := by
  interval_cases m <;> decide

/-- A `%XX` escape consists of `%` and hex digits. -/
theorem percentEncodeByte_ok (n : Nat) (hn : n < 256) :
    ∀ ch ∈ percentEncodeByte n, (isURIUnreserved ch || (ch == '%')) = true := by
  intro ch hch
  unfold percentEncodeByte at hch
  simp at hch
  rcases hch with h | h | h
  · subst h; decide
  · subst h; exact hexDigitChar_ok _ (by omega)
  · subst h; exact hexDigitChar_ok _ (by omega)

/-- Membership in a structural concatenation. -/
theorem mem_concatAll {α : Type} (x : α) (ls : List (List α)) :
    x ∈ concatAll ls ↔ ∃ l ∈ ls, x ∈ l := by
  induction ls with
  | nil => simp [concatAll]
  | cons hd tl ih => simp [concatAll, ih]

/-- Every output character of a single encoded character is unreserved or a
percent sign. -/
theorem encodeURIChar_ok (c : Char) :
    ∀ ch ∈ encodeURIChar c, (isURIUnreserved ch || (ch == '%')) = true := by
  intro ch hch
  unfold encodeURIChar at hch
  by_cases h : isURIUnreserved c
  · simp [h] at hch
    subst hch
    simp [h]
  · simp [h] at hch
    rw [mem_concatAll] at hch
    obtain ⟨l, hl, hchl⟩ := hch
    rw [List.mem_map] at hl
    obtain ⟨m, hm, rfl⟩ := hl
    exact percentEncodeByte_ok m (utf8Encode_lt c.toNat (char_toNat_lt c) m hm) ch hchl

/-- `encodeURIComponent` emits only unreserved characters and `%` escapes. -/
theorem encodeURIComponent_alphabet (s : String) :
    ∀ ch ∈ (encodeURIComponent s).data, (isURIUnreserved ch || (ch == '%')) = true := by
  intro ch hch
  have hch2 : ch ∈ concatAll (s.data.map encodeURIChar) := hch
  rw [mem_concatAll] at hch2
  obtain ⟨l, hl, hchl⟩ := hch2
  rw [List.mem_map] at hl
  obtain ⟨c, _, rfl⟩ := hl
  exact encodeURIChar_ok c ch hchl

/-- No raw space and no raw slash survives `encodeURIComponent`. -/
theorem encodeURIComponent_no_space_slash (s : String) :
    ((encodeURIComponent s).data.all fun ch => !(ch == ' ') && !(ch == '/')) = true := by
  rw [List.all_eq_true]
  intro ch hch
  have h := encodeURIComponent_alphabet s ch hch
  rcases Bool.or_eq_true_iff.mp h with h1 | h1
  · by_cases hsp : ch = ' '
    · subst hsp; exact absurd h1 (by decide)
    · by_cases hsl : ch = '/'
      · subst hsl; exact absurd h1 (by decide)
      · simp [hsp, hsl]
  · have : ch = '%' := by simpa using h1
    subst this
    decide

/-- On a non-empty string without line terminators, the archive-path regex
matches and captures the `Grids/`-stripped remainder. -/
theorem regexStripGrids_match (s : String) (hne : s ≠ "")
    (hterm : s.data.any isJsLineTerminator = false) :
    regexStripGrids s = some (gridsRemainder s) := by
  unfold regexStripGrids gridsRemainder
  simp [hne, hterm]
  split <;> rfl

/-- C9 (amended): the Vue binding builds the deferred URL as the spec says —
`Grids/` stripped and the remainder percent-encoded (hence free of raw
spaces and slashes).  (The React binding interpolates the remainder raw, see
the counterexample.) -/
theorem deferred_url_encoding_amended (b : AACButton) (loadId : Option String)
    (lid entry : String)
    (hentry : b.resolvedImageEntry = some entry)
    (helig : entryEligible b.resolvedImageEntry = true)
    (hni : inlineDataImage b.image = false)
    (hterm : entry.data.any isJsLineTerminator = false)
    (hload : strTruthy loadId = some lid) :
    (vueResolution b loadId).2
        = some ("/api/image/" ++ lid ++ "/" ++ encodeURIComponent (gridsRemainder entry))
    ∧ ((encodeURIComponent (gridsRemainder entry)).data.all
        fun ch => !(ch == ' ') && !(ch == '/')) = true := by
  have hnientry : inlineDataImage b.resolvedImageEntry = false :=
    entryEligible_not_inline _ helig
  have hne : entry ≠ "" := by
    rw [hentry] at helig
    unfold entryEligible at helig
    simp only [Bool.and_eq_true, Bool.not_eq_true'] at helig
    simpa using helig.1.1
  constructor
  · unfold vueResolution
    rw [hnientry, hni, helig, hload, hentry]
    simp [regexStripGrids_match entry hne hterm]
  · exact encodeURIComponent_no_space_slash _

/-- Witness for C9 (amended) at the concrete spaced entry and loadId. -/
theorem deferred_url_encoding_amended_witness :
    (vueResolution c9Button (some "L")).2
        = some ("/api/image/" ++ "L" ++ "/"
            ++ encodeURIComponent (gridsRemainder "Grids/my pic.png"))
    ∧ ((encodeURIComponent (gridsRemainder "Grids/my pic.png")).data.all
        fun ch => !(ch == ' ') && !(ch == '/')) = true :=
  deferred_url_encoding_amended c9Button (some "L") "L" "Grids/my pic.png"
    rfl (by decide) rfl (by decide) (by decide)

/-! ## Grid layout engine claims -/

/-- Spans default to 1 and `0` is coerced to 1, so a span is positive. -/
theorem jsSpan_pos (o : Option Nat) : 0 < jsSpan o := by
  cases o with
  | none => decide
  | some n =>
    unfold jsSpan
    by_cases h : n = 0
    · simp [h]
    · simp [h]
      exact Nat.pos_of_ne_zero h

/-- Once an id is in the `rendered` set, the traversal emits no occupied
cell for it and skips every further matrix cell referencing it. -/
theorem renderFlat_mem (i0 : String) (l : List (Nat × Nat × Option AACButton)) :
    ∀ rendered : List String, rendered.contains i0 = true →
    (renderFlat rendered l).filter (isOccupiedOf i0) = []
    ∧ (renderFlat rendered l).countP (isSkippedOf i0) = l.countP (cellHasId i0) := by
  induction l with
  | nil => intro rendered _; exact ⟨rfl, rfl⟩
  | cons e rest ih =>
    intro rendered hmem
    obtain ⟨i, j, ob⟩ := e
    cases ob with
    | none =>
      have h1 : renderFlat rendered ((i, j, none) :: rest)
          = GridCell.empty i j :: renderFlat rendered rest := rfl
      obtain ⟨iha, ihb⟩ := ih rendered hmem
      rw [h1]
      constructor
      · rw [List.filter_cons]
        simp [isOccupiedOf, iha]
      · rw [List.countP_cons, List.countP_cons]
        simp [isSkippedOf, cellHasId, ihb]
    | some b =>
      have hmemm : i0 ∈ rendered := List.elem_iff.mp hmem
      by_cases hc : rendered.contains b.id = true
      · have hcm : b.id ∈ rendered := List.elem_iff.mp hc
        have h1 : renderFlat rendered ((i, j, some b) :: rest)
            = GridCell.skipped b.id :: renderFlat rendered rest := by
          simp [renderFlat, hcm]
        obtain ⟨iha, ihb⟩ := ih rendered hmem
        rw [h1]
        constructor
        · rw [List.filter_cons]
          simp [isOccupiedOf, iha]
        · rw [List.countP_cons, List.countP_cons]
          simp [isSkippedOf, cellHasId, ihb]
      · have hcm : b.id ∉ rendered := fun hm => hc (List.elem_iff.mpr hm)
        have hne : (b.id == i0) = false := by
          by_cases h : b.id = i0
          · rw [h] at hcm; exact absurd hmemm hcm
          · simp [h]
        have h1 : renderFlat rendered ((i, j, some b) :: rest)
            = GridCell.occupied b (j + 1) (jsSpan b.columnSpan) (i + 1) (jsSpan b.rowSpan)
                :: renderFlat (b.id :: rendered) rest := by
          simp [renderFlat, hcm]
        have hmem2 : (b.id :: rendered).contains i0 = true := by
          simp [List.contains_cons]
          exact Or.inr hmemm
        obtain ⟨iha, ihb⟩ := ih (b.id :: rendered) hmem2
        rw [h1]
        constructor
        · rw [List.filter_cons]
          simp [isOccupiedOf, hne, iha]
        · rw [List.countP_cons, List.countP_cons]
          simp [isSkippedOf, cellHasId, hne, ihb]

/-- For an id not yet rendered, the traversal emits exactly one occupied
cell — at its first matrix occurrence in row-major order, with 1-based
position and the button's spans — and skips each of the remaining
occurrences. -/
theorem renderFlat_fresh (i0 : String) (l : List (Nat × Nat × Option AACButton)) :
    ∀ rendered : List String, rendered.contains i0 = false →
    (renderFlat rendered l).filter (isOccupiedOf i0)
        = ((l.filter (cellHasId i0)).head?.map occCellOf).toList
    ∧ (renderFlat rendered l).countP (isSkippedOf i0) = l.countP (cellHasId i0) - 1 := by
  induction l with
  | nil => intro rendered _; exact ⟨rfl, rfl⟩
  | cons e rest ih =>
    intro rendered hmem
    obtain ⟨i, j, ob⟩ := e
    cases ob with
    | none =>
      have h1 : renderFlat rendered ((i, j, none) :: rest)
          = GridCell.empty i j :: renderFlat rendered rest := rfl
      obtain ⟨iha, ihb⟩ := ih rendered hmem
      rw [h1]
      constructor
      · rw [List.filter_cons, List.filter_cons]
        simp [isOccupiedOf, cellHasId, iha]
      · rw [List.countP_cons, List.countP_cons]
        simp [isSkippedOf, cellHasId, ihb]
    | some b =>
      have hmemm : i0 ∉ rendered := by
        have h := hmem
        simp at h
        exact h
      by_cases hb : (b.id == i0) = true
      · have hbeq : b.id = i0 := by simpa using hb
        have hcm : b.id ∉ rendered := by rw [hbeq]; exact hmemm
        have h1 : renderFlat rendered ((i, j, some b) :: rest)
            = GridCell.occupied b (j + 1) (jsSpan b.columnSpan) (i + 1) (jsSpan b.rowSpan)
                :: renderFlat (b.id :: rendered) rest := by
          simp [renderFlat, hcm]
        have hmem2 : (b.id :: rendered).contains i0 = true := by
          simp [List.contains_cons, hbeq]
        obtain ⟨ma, mb⟩ := renderFlat_mem i0 rest (b.id :: rendered) hmem2
        rw [h1]
        constructor
        · rw [List.filter_cons, List.filter_cons]
          simp [isOccupiedOf, cellHasId, hb, ma, occCellOf]
        · rw [List.countP_cons, List.countP_cons]
          simp [isSkippedOf, cellHasId, hb, mb]
      · by_cases hc : rendered.contains b.id = true
        · have hcm : b.id ∈ rendered := List.elem_iff.mp hc
          have h1 : renderFlat rendered ((i, j, some b) :: rest)
              = GridCell.skipped b.id :: renderFlat rendered rest := by
            simp [renderFlat, hcm]
          obtain ⟨iha, ihb⟩ := ih rendered hmem
          rw [h1]
          constructor
          · rw [List.filter_cons, List.filter_cons]
            simp [isOccupiedOf, cellHasId, hb, iha]
          · rw [List.countP_cons, List.countP_cons]
            simp [isSkippedOf, cellHasId, hb, ihb]
        · have hcm : b.id ∉ rendered := fun hm => hc (List.elem_iff.mpr hm)
          have hne2 : (i0 == b.id) = false := by
            by_cases h : i0 = b.id
            · rw [h] at hb; simp at hb
            · simp [h]
          have h1 : renderFlat rendered ((i, j, some b) :: rest)
              = GridCell.occupied b (j + 1) (jsSpan b.columnSpan) (i + 1) (jsSpan b.rowSpan)
                  :: renderFlat (b.id :: rendered) rest := by
            simp [renderFlat, hcm]
          have hmem2 : (b.id :: rendered).contains i0 = false := by
            simp [List.contains_cons, hne2]
            constructor
            · intro h; rw [h] at hb; simp at hb
            · exact hmemm
          obtain ⟨iha, ihb⟩ := ih (b.id :: rendered) hmem2
          rw [h1]
          constructor
          · rw [List.filter_cons, List.filter_cons]
            simp [isOccupiedOf, cellHasId, hb, iha]
          · rw [List.countP_cons, List.countP_cons]
            simp [isSkippedOf, cellHasId, hb, ihb]

/-- C4: for every grid satisfying the span invariant for a button `b` — the
matrix cells referencing `b`'s id are exactly the row-major `R × C`
rectangle rooted at `(r, c)`, each holding `b`, with `R` and `C` the
button's (defaulted) row and column spans — the layout engine emits exactly
one occupied cell for `b`, with 1-based `gridColumn = c+1 / span C` and
`gridRow = r+1 / span R`, and exactly `R*C - 1` skipped cells, never more,
never fewer. -/
theorem grid_span_coverage (grid : List (List (Option AACButton))) (b : AACButton)
    (r c R C : Nat) (hR : jsSpan b.rowSpan = R) (hC : jsSpan b.columnSpan = C)
    (hfoot : (indexedCells grid).filter (cellHasId b.id) = rectCells r c R C b) :
    (renderGridCells grid).filter (isOccupiedOf b.id)
        = [GridCell.occupied b (c + 1) C (r + 1) R]
    ∧ (renderGridCells grid).countP (isSkippedOf b.id) = R * C - 1 := by
  have hcount : (indexedCells grid).countP (cellHasId b.id) = R * C := by
    rw [List.countP_eq_length_filter, hfoot]
    simp [rectCells]
  have hpos : 0 < R * C :=
    Nat.mul_pos (hR ▸ jsSpan_pos b.rowSpan) (hC ▸ jsSpan_pos b.columnSpan)
  have hhead : (rectCells r c R C b).head? = some (r, c, some b) := by
    unfold rectCells
    obtain ⟨m, hm⟩ : ∃ m, R * C = m + 1 := ⟨R * C - 1, by omega⟩
    rw [hm, List.range_succ_eq_map]
    simp
  have hfresh := renderFlat_fresh b.id (indexedCells grid) [] rfl
  constructor
  · show (renderFlat [] (indexedCells grid)).filter (isOccupiedOf b.id) = _
    rw [hfresh.1, hfoot, hhead]
    simp [occCellOf, hR, hC]
  · show (renderFlat [] (indexedCells grid)).countP (isSkippedOf b.id) = _
    rw [hfresh.2, hcount]

/-- Witness for C4: the 2×2-spanning button on its 2×2 grid renders once
with spans 2/2 at the top-left cell and is skipped three times. -/
theorem grid_span_coverage_witness :
    (renderGridCells c4Grid).filter (isOccupiedOf "big")
        = [GridCell.occupied c4Button 1 2 1 2]
    ∧ (renderGridCells c4Grid).countP (isSkippedOf "big") = 3 :=
  grid_span_coverage c4Grid c4Button 0 0 2 2 (by decide) (by decide) (by decide)
